import Mathlib

/-!
Verification development for the todoist-habitify sync script (src/sync.py).

The script is embedded shallowly:

* JSON values returned by `json.load` / `json.loads` are modelled by the
  inductive type `Json`; Python truthiness of such a value is `jTruthy`.
* The state store (`load_sync_state`, lines 26-35) is a function of the
  file's content; `none` models a missing file, `some none` models content
  whose read or JSON parse raises (`IOError` / `json.JSONDecodeError`),
  `some (some j)` models content parsing to the JSON value `j`.
  An uncaught Python exception is modelled by `Except.error`.
* Tasks and habits consumed by the sync loop are modelled by the `Task`
  and `Habit` records of the spec's data model (`content`/`completed_at`,
  `id`/`name`), matching the fields the loop reads.
* `datetime.fromisoformat` / `strftime` are modelled by an executable
  parser and printer over the field record `PyDateTime` (defined below).
* Wall-clock instants used for the sync window (claims about the window
  arithmetic) are modelled as seconds since an epoch (`Nat`);
  `strftime "%Y-%m-%dT%H:%M"` on an instant is truncation to the minute
  (`truncMinute`), and the `isoformat`/`fromisoformat` round trip used by
  the watermark keeps full precision (identity on the instant).
-/

inductive Json where
  | jnull
  | jbool (b : Bool)
  | jnum (n : Int)
  | jstr (s : String)
  | jarr (elems : List Json)
  | jobj (fields : List (String × Json))

/-- Python truthiness (`if result:` and friends) of a JSON-decoded value:
`None`, `False`, `0`, `""`, `[]`, `{}` are falsy, everything else truthy. -/
def jTruthy : Json → Bool
  | .jnull => false
  | .jbool b => b
  | .jnum n => n != 0
  | .jstr s => s != ""
  | .jarr l => !l.isEmpty
  | .jobj l => !l.isEmpty

/-- Python `dict.get k` on a JSON object (keys unique in a real dict;
an association list looked up from the front). -/
def jGet (fields : List (String × Json)) (k : String) : Option Json :=
  (fields.find? (fun p => p.1 == k)).map (fun p => p.2)

/-- Embedding of `load_sync_state` (src/sync.py lines 26-35).

Input: `none` = state file missing; `some none` = the open/read raises
`IOError` or `json.load` raises `JSONDecodeError` (both caught, line 33);
`some (some j)` = `json.load` returns the JSON value `j`.

The body then runs `state.get('last_sync')`: on a JSON object this is
`dict.get`; on any other JSON value Python raises `AttributeError`,
which the `except (json.JSONDecodeError, IOError)` clause does NOT catch,
so it escapes the function (modelled by `Except.error`). -/
def load_sync_state (content : Option (Option Json)) : Except String (Option Json) :=
  match content with
  | none => .ok none
  | some none => .ok none
  | some (some j) =>
    match j with
    | .jobj fields => .ok (jGet fields "last_sync")
    | _ => .error "AttributeError"

/-- A habit as consumed by the sync loop: `habit['id']`, `habit['name']`
(spec data model `Habit`). -/
structure Habit where
  id : String
  name : String
deriving DecidableEq

/-- A completed task as consumed by the sync loop: `task['content']`,
`task['completed_at']` (spec data model `CompletedTask`). -/
structure CompletedTask where
  content : String
  completed_at : String
deriving DecidableEq

/-- Python `str.lower()` of ASCII text, as an executable character map
(`String.toLower` itself is irreducible in this toolchain). -/
def pyLower (s : String) : String := ⟨s.data.map Char.toLower⟩

/-- Python whitespace as stripped by `str.strip()`. -/
def isSpaceChar (c : Char) : Bool :=
  c = ' ' || c = '\t' || c = '\n' || c = '\r' || c = '\x0b' || c = '\x0c'

/-- Python `str.strip()`: drop whitespace from both ends. -/
def pyStrip (s : String) : String :=
  ⟨((s.data.dropWhile isSpaceChar).reverse.dropWhile isSpaceChar).reverse⟩

/-- Embedding of line 184, `habit_map = {habit['name'].lower(): habit
for habit in habits}`, read through `dict.get key`: a later habit with the
same lower-cased name overwrites an earlier one, so the lookup returns the
last habit (in source order) whose lower-cased name equals the key.
Note the source lower-cases but does NOT strip/trim the name. -/
def habit_map_get (habits : List Habit) (key : String) : Option Habit :=
  habits.reverse.find? (fun h => pyLower h.name == key)

/-- Embedding of line 205, `habit_map.get(task_name.lower())`. -/
def matching_habit (habits : List Habit) (taskName : String) : Option Habit :=
  habit_map_get habits (pyLower taskName)

/-- Spec-worded variant of the matcher, for comparison with the one
embedded from the source: the spec says the lookup is keyed by the
"lower-cased, trimmed habit name" (spec section 4.4), so here the habit
name is additionally trimmed before keying. -/
def matching_habit_specworded (habits : List Habit) (taskName : String) : Option Habit :=
  habits.reverse.find? (fun h => pyStrip (pyLower h.name) == pyLower taskName)

/-- Embedding of `get_habitify_habits` (src/sync.py lines 92-110) as a
function of the decoded response: `none` models `make_request` returning
`None` (transport/HTTP/JSON failure), `some j` a decoded JSON body `j`.
`if result:` is Python truthiness; a truthy dict containing `'data'`
is unwrapped, any other truthy value is returned as is, and a falsy
result yields the literal `[]`. -/
def get_habitify_habits (resp : Option Json) : Json :=
  match resp with
  | none => .jarr []
  | some j =>
    if jTruthy j then
      match j with
      | .jobj fields =>
        match jGet fields "data" with
        | some v => v
        | none => .jobj fields
      | _ => j
    else .jarr []

/-- Field record of a Python `datetime` as produced by
`datetime.fromisoformat`: calendar fields plus the `tzinfo` UTC offset in
minutes (`none` for a naive datetime). -/
structure PyDateTime where
  year : Nat
  month : Nat
  day : Nat
  hour : Nat
  minute : Nat
  second : Nat
  microsecond : Nat
  utcoffset : Option Int
deriving DecidableEq

/-- Numeric value of an ASCII digit character. -/
def digitVal (c : Char) : Option Nat :=
  if c.isDigit then some (c.toNat - 48) else none

/-- Read exactly two ASCII digits. -/
def parse2 : List Char → Option (Nat × List Char)
  | a :: b :: rest =>
    match digitVal a, digitVal b with
    | some x, some y => some (10 * x + y, rest)
    | _, _ => none
  | _ => none

/-- Read exactly four ASCII digits. -/
def parse4 : List Char → Option (Nat × List Char)
  | a :: b :: c :: d :: rest =>
    match digitVal a, digitVal b, digitVal c, digitVal d with
    | some x, some y, some z, some w => some (1000 * x + 100 * y + 10 * z + w, rest)
    | _, _, _, _ => none
  | _ => none

/-- Read a maximal run of ASCII digits. -/
def takeDigits : List Char → List Nat × List Char
  | [] => ([], [])
  | c :: cs =>
    match digitVal c with
    | some d =>
      let p := takeDigits cs
      (d :: p.1, p.2)
    | none => ([], c :: cs)

/-- Parse the optional UTC-offset tail `±HH:MM` of an ISO-8601 string
(the colon is required, as in `datetime.fromisoformat`). An empty rest
means a naive datetime. -/
def parseOffset : List Char → Option (Option Int × List Char)
  | [] => some (none, [])
  | c :: cs =>
    if c = '+' ∨ c = '-' then
      match parse2 cs with
      | some (hh, rest1) =>
        match rest1 with
        | ':' :: rest2 =>
          match parse2 rest2 with
          | some (mm, rest3) =>
            let v : Int := (hh * 60 + mm : Nat)
            some (some (if c = '-' then -v else v), rest3)
          | none => none
        | _ => none
      | none => none
    else none

/-- Parse the time-of-day part `HH[:MM[:SS[.f+]]]` (1-6 fractional
digits, scaled to microseconds as `fromisoformat` does). Returns
hour, minute, second, microsecond and the unconsumed rest. -/
def parseTime (cs : List Char) : Option (Nat × Nat × Nat × Nat × List Char) :=
  match parse2 cs with
  | none => none
  | some (hh, r1) =>
    match r1 with
    | ':' :: r2 =>
      match parse2 r2 with
      | none => none
      | some (mi, r3) =>
        match r3 with
        | ':' :: r4 =>
          match parse2 r4 with
          | none => none
          | some (ss, r5) =>
            match r5 with
            | '.' :: r6 =>
              let p := takeDigits r6
              if 1 ≤ p.1.length ∧ p.1.length ≤ 6 then
                let v := p.1.foldl (fun a d => 10 * a + d) 0
                some (hh, mi, ss, v * 10 ^ (6 - p.1.length), p.2)
              else none
            | _ => some (hh, mi, ss, 0, r5)
        | _ => some (hh, mi, 0, 0, r3)
    | _ => some (hh, 0, 0, 0, r1)

/-- Structural part of `datetime.fromisoformat`: `YYYY-MM-DD`, optionally
followed by a single separator character, the time of day, and the
UTC offset; the whole input must be consumed. -/
def rawParse (cs : List Char) : Option PyDateTime :=
  match parse4 cs with
  | none => none
  | some (yy, r1) =>
    match r1 with
    | '-' :: r2 =>
      match parse2 r2 with
      | none => none
      | some (mo, r3) =>
        match r3 with
        | '-' :: r4 =>
          match parse2 r4 with
          | none => none
          | some (dd, r5) =>
            match r5 with
            | [] => some ⟨yy, mo, dd, 0, 0, 0, 0, none⟩
            | _sep :: r6 =>
              match parseTime r6 with
              | none => none
              | some (hh, mi, ss, us, r7) =>
                match parseOffset r7 with
                | none => none
                | some (off, r8) =>
                  if r8.isEmpty then some ⟨yy, mo, dd, hh, mi, ss, us, off⟩ else none
        | _ => none
    | _ => none

/-- Gregorian leap-year rule (as in Python's `calendar.isleap`). -/
def isLeapYear (y : Nat) : Bool :=
  (y % 4 == 0 && y % 100 != 0) || (y % 400 == 0)

/-- Number of days of the given month. -/
def daysInMonth (y m : Nat) : Nat :=
  if m = 2 then (if isLeapYear y then 29 else 28)
  else if m = 4 ∨ m = 6 ∨ m = 9 ∨ m = 11 then 30
  else 31

/-- Range checks applied by the `datetime` constructor: year 1-9999,
valid calendar date, time fields in range, offset strictly within
24 hours. -/
def isValidDT (dt : PyDateTime) : Bool :=
  decide (1 ≤ dt.year) && decide (dt.year ≤ 9999) &&
  decide (1 ≤ dt.month) && decide (dt.month ≤ 12) &&
  decide (1 ≤ dt.day) && decide (dt.day ≤ daysInMonth dt.year dt.month) &&
  decide (dt.hour ≤ 23) && decide (dt.minute ≤ 59) && decide (dt.second ≤ 59) &&
  decide (dt.microsecond ≤ 999999) &&
  (match dt.utcoffset with
   | none => true
   | some off => decide (off.natAbs < 24 * 60))

/-- Embedding of `datetime.fromisoformat` for the shapes this script can
feed it: parse, then validate the ranges; `none` models the `ValueError`
the caller catches. -/
def fromisoformat (s : String) : Option PyDateTime :=
  match rawParse s.data with
  | none => none
  | some dt => if isValidDT dt then some dt else none

/-- Embedding of `completed_at.replace('Z', '+00:00')` (line 194): every
occurrence of the single character `Z` is replaced. -/
def replaceZChars : List Char → List Char
  | [] => []
  | c :: cs => (if c = 'Z' then ['+', '0', '0', ':', '0', '0'] else [c]) ++ replaceZChars cs

/-- String form of `replaceZChars`. -/
def replaceZ (s : String) : String := ⟨replaceZChars s.data⟩

/-- Zero-padded two-digit decimal (the `%m`/`%d`/`%H`/`%M`/`%S` fields of
`strftime`; their values are below 100 for any valid datetime). -/
def pad2 (n : Nat) : List Char := [Nat.digitChar (n / 10 % 10), Nat.digitChar (n % 10)]

/-- Zero-padded four-digit decimal (the `%Y` field; years are 1-9999). -/
def pad4 (n : Nat) : List Char :=
  [Nat.digitChar (n / 1000 % 10), Nat.digitChar (n / 100 % 10),
   Nat.digitChar (n / 10 % 10), Nat.digitChar (n % 10)]

/-- The `%z` field of `strftime`: empty for a naive datetime, otherwise
sign followed by the absolute offset as `HHMM` (no colon). -/
def formatOffsetZ : Option Int → List Char
  | none => []
  | some off => (if off < 0 then '-' else '+') :: (pad2 (off.natAbs / 60) ++ pad2 (off.natAbs % 60))

/-- The `%Y-%m-%dT%H:%M:%S` part of the format string of line 196. -/
def isoBodyChars (dt : PyDateTime) : List Char :=
  pad4 dt.year ++ '-' :: pad2 dt.month ++ '-' :: pad2 dt.day ++ 'T' :: pad2 dt.hour
    ++ ':' :: pad2 dt.minute ++ ':' :: pad2 dt.second

/-- Embedding of `completed_date.strftime('%Y-%m-%dT%H:%M:%S%z')`
(line 196). -/
def strftimeIsoZ (dt : PyDateTime) : List Char := isoBodyChars dt ++ formatOffsetZ dt.utcoffset

/-- Embedding of the offset surgery of lines 198-199: if the fifth
character from the end is a sign, insert a colon before the last two
characters. -/
def addColonOffset (cs : List Char) : List Char :=
  if 5 ≤ cs.length ∧ (cs.get? (cs.length - 5) = some '+' ∨ cs.get? (cs.length - 5) = some '-') then
    cs.take (cs.length - 2) ++ ':' :: cs.drop (cs.length - 2)
  else cs

/-- The date normalizer of lines 193-199: replace a `Z` suffix by
`+00:00`, parse, format with `%z`, and insert the colon into the
offset. `none` models the caught per-task parse exception (the task is
then skipped by the `continue` of line 202). -/
def normalize_target_date (completed_at : String) : Option String :=
  match fromisoformat (replaceZ completed_at) with
  | none => none
  | some dt => some ⟨addColonOffset (strftimeIsoZ dt)⟩

/-- Evaluation of line 215, `if result and result.get('status')`, on the
decoded response of `create_habitify_log` (`none` models the `None`
returned on a caught transport/HTTP error). A truthy response that is not
a dict makes `.get` raise `AttributeError` (modelled by `Except.error`);
a falsy one short-circuits to failure. -/
def statusCheck (resp : Option Json) : Except String Bool :=
  match resp with
  | none => .ok false
  | some j =>
    if jTruthy j then
      match j with
      | .jobj fields =>
        .ok (match jGet fields "status" with
             | some v => jTruthy v
             | none => false)
      | _ => .error "AttributeError"
    else .ok false

/-- Boolean reading of `statusCheck` (meaningful when it does not raise). -/
def statusBool (resp : Option Json) : Bool :=
  match statusCheck resp with
  | .ok b => b
  | .error _ => false

/-- A log-create response the status test of line 215 can evaluate
without raising: absent, falsy, or a JSON object. -/
def RespWF : Option Json → Prop
  | none => True
  | some j => jTruthy j = false ∨ ∃ fields, j = Json.jobj fields

/-- Running state of the per-task loop of lines 187-222: the success
counter `synced_count` and the `create_habitify_log` calls issued so far
(habit id and target date, in order). -/
structure LoopSt where
  synced : Nat
  calls : List (String × String)
deriving DecidableEq

/-- One iteration of the loop body (lines 188-221) for one task:
normalize the completion date (a parse failure `continue`s), look up the
habit case-insensitively (no match skips), otherwise issue the log call
— its response is `logResp` applied to the number of calls made before
it — and count a truthy status as a success. -/
def processTask (habits : List Habit) (logResp : Nat → Option Json)
    (st : LoopSt) (t : CompletedTask) : Except String LoopSt :=
  match normalize_target_date t.completed_at with
  | none => .ok st
  | some target =>
    match matching_habit habits t.content with
    | none => .ok st
    | some habit =>
      let resp := logResp st.calls.length
      let st' : LoopSt := ⟨st.synced, st.calls ++ [(habit.id, target)]⟩
      match statusCheck resp with
      | .error e => .error e
      | .ok true => .ok ⟨st'.synced + 1, st'.calls⟩
      | .ok false => .ok st'

/-- The whole `for task in completed_tasks` loop of lines 188-221. -/
def runLoop (habits : List Habit) (logResp : Nat → Option Json) :
    List CompletedTask → LoopSt → Except String LoopSt
  | [], st => .ok st
  | t :: ts, st =>
    match processTask habits logResp st t with
    | .error e => .error e
    | .ok st' => runLoop habits logResp ts st'

/-- The `create_habitify_log` calls the loop issues, computed from the
tasks and habits alone: one call per task whose date normalizes and whose
name matches a habit. Used to state that the calls do not depend on the
responses. -/
def expectedCalls (habits : List Habit) : List CompletedTask → List (String × String)
  | [] => []
  | t :: ts =>
    (match normalize_target_date t.completed_at with
     | none => []
     | some target =>
       match matching_habit habits t.content with
       | some habit => [(habit.id, target)]
       | none => []) ++ expectedCalls habits ts

/-- Number of truthy-status responses among `n` consecutive log calls
starting at call index `start`. -/
def countSuccessFrom (logResp : Nat → Option Json) (start n : Nat) : Nat :=
  match n with
  | 0 => 0
  | m + 1 => (if statusBool (logResp start) then 1 else 0) + countSuccessFrom logResp (start + 1) m

/-- Observable side effects of one run, in order. -/
inductive Effect where
  | stateLoad
  | fetchTasks
  | fetchHabits
  | createLog (habitId : String) (targetDate : String)
  | stateSave (timestamp : String)
deriving DecidableEq

/-- Observable outcome of one run of `sync_tasks`: the process exit code,
the ordered effects, the timestamp handed to `save_sync_state` (if it was
called), the final `synced/total` tally print of line 223 (absent on the
early-return paths), and the issued log calls. -/
structure RunOutcome where
  exitCode : Nat
  effects : List Effect
  saved : Option String
  reported : Option (Nat × Nat)
  calls : List (String × String)
deriving DecidableEq

/-- Computation of `since_datetime` (lines 154-161) from the loaded
state value: a falsy value (or none) selects the bootstrap window; a
truthy non-string makes `datetime.fromisoformat` raise `TypeError`; an
unparsable string raises `ValueError`. The value itself only feeds the
fetch, whose result is an oracle input here. -/
def computeSince (lastSync : Option Json) : Except String (Option PyDateTime) :=
  match lastSync with
  | none => .ok none
  | some j =>
    if jTruthy j then
      match j with
      | .jstr s =>
        match fromisoformat s with
        | some dt => .ok (some dt)
        | none => .error "ValueError"
      | _ => .error "TypeError"
    else .ok none

/-- Embedding of `sync_tasks` (src/sync.py lines 143-226).

Oracle inputs stand for the environment: `token`/`key` are the values of
the two environment variables (`none` = unset, read through
`os.environ.get(_, '')`), `stateContent` is the state-file content as in
`load_sync_state`, `tasks` and `habits` are what the two fetchers return
(their failure modes already yield `[]`), `logResp i` is the decoded
response of the i-th `create_habitify_log` call, and `nowIso` is
`datetime.now().isoformat()` at the commit site that runs.
`sys.exit(1)` is modelled by exit code 1 with the effects produced so
far; an uncaught exception by `Except.error`. -/
def sync_tasks (token key : Option String) (stateContent : Option (Option Json))
    (tasks : List CompletedTask) (habits : List Habit)
    (logResp : Nat → Option Json) (nowIso : String) : Except String RunOutcome :=
  if (token.getD "") = "" then
    .ok ⟨1, [], none, none, []⟩
  else if (key.getD "") = "" then
    .ok ⟨1, [], none, none, []⟩
  else
    match load_sync_state stateContent with
    | .error e => .error e
    | .ok lastSync =>
      match computeSince lastSync with
      | .error e => .error e
      | .ok _since =>
        if tasks.isEmpty then
          .ok ⟨0, [.stateLoad, .fetchTasks, .stateSave nowIso], some nowIso, none, []⟩
        else if habits.isEmpty then
          .ok ⟨0, [.stateLoad, .fetchTasks, .fetchHabits, .stateSave nowIso], some nowIso, none, []⟩
        else
          match runLoop habits logResp tasks ⟨0, []⟩ with
          | .error e => .error e
          | .ok st =>
            .ok ⟨0,
                 [.stateLoad, .fetchTasks, .fetchHabits]
                   ++ st.calls.map (fun c => Effect.createLog c.1 c.2)
                   ++ [.stateSave nowIso],
                 some nowIso, some (st.synced, tasks.length), st.calls⟩

/-- A state-file content on which the run's state handling raises no
exception: loading succeeds and the loaded value feeds
`datetime.fromisoformat` without raising. -/
def StateWF (content : Option (Option Json)) : Prop :=
  ∃ ls s, load_sync_state content = .ok ls ∧ computeSince ls = .ok s

/-- Instants are seconds since an epoch; `strftime('%Y-%m-%dT%H:%M')` on
an instant (lines 75-76) keeps only the minute, i.e. truncates the
seconds. -/
def truncMinute (t : Nat) : Nat := t / 60 * 60

/-- Bootstrap window start of line 160:
`datetime.now() - timedelta(minutes=60)`. -/
def bootstrap_since (tNow : Nat) : Nat := tNow - 3600

/-- The `since` query parameter of line 75: the window start formatted at
minute precision. -/
def since_param (sinceDT : Nat) : Nat := truncMinute sinceDT

/-- The `until` query parameter of line 76: `datetime.now()` at fetch
time, formatted at minute precision. -/
def until_param (tFetch : Nat) : Nat := truncMinute tFetch

/-- The watermark committed at lines 168/178/226:
`datetime.now().isoformat()` keeps full precision, and
`datetime.fromisoformat` recovers it exactly on the next run. -/
def commit_value (tCommit : Nat) : Nat := tCommit

/-- Membership of an instant in the half-open fetch window
`[since, until)` a run queries, as determined by the two parameters of
lines 75-76. -/
def window_mem (sinceDT tFetch x : Nat) : Prop :=
  since_param sinceDT ≤ x ∧ x < until_param tFetch

lemma digitChar_not_sign : ∀ k, k < 10 → Nat.digitChar k ≠ '+' ∧ Nat.digitChar k ≠ '-' := by
  decide

lemma addColonOffset_nosign
    (c0 c1 c2 c3 c4 c5 c6 c7 c8 c9 c10 c11 c12 c13 c14 c15 c16 c17 c18 : Char)
    (h : c14 ≠ '+' ∧ c14 ≠ '-') :
    addColonOffset
        [c0, c1, c2, c3, c4, c5, c6, c7, c8, c9, c10, c11, c12, c13, c14, c15, c16, c17, c18]
      = [c0, c1, c2, c3, c4, c5, c6, c7, c8, c9, c10, c11, c12, c13, c14, c15, c16, c17, c18] := by
  unfold addColonOffset
  rw [if_neg]
  intro hcond
  have h2 := hcond.2
  rw [show List.get?
        [c0, c1, c2, c3, c4, c5, c6, c7, c8, c9, c10, c11, c12, c13, c14, c15, c16, c17, c18]
        (List.length [c0, c1, c2, c3, c4, c5, c6, c7, c8, c9, c10,
          c11, c12, c13, c14, c15, c16, c17, c18] - 5) = some c14 from rfl] at h2
  rcases h2 with h2 | h2
  · exact h.1 (Option.some.inj h2)
  · exact h.2 (Option.some.inj h2)

lemma addColon_utc (dt : PyDateTime) :
    addColonOffset (isoBodyChars dt ++ ['+', '0', '0', '0', '0'])
      = isoBodyChars dt ++ ['+', '0', '0', ':', '0', '0'] := rfl

lemma addColon_naive (dt : PyDateTime) (h : dt.utcoffset = none) :
    addColonOffset (strftimeIsoZ dt) = isoBodyChars dt := by
  have hb : strftimeIsoZ dt
      = [Nat.digitChar (dt.year / 1000 % 10), Nat.digitChar (dt.year / 100 % 10),
         Nat.digitChar (dt.year / 10 % 10), Nat.digitChar (dt.year % 10), '-',
         Nat.digitChar (dt.month / 10 % 10), Nat.digitChar (dt.month % 10), '-',
         Nat.digitChar (dt.day / 10 % 10), Nat.digitChar (dt.day % 10), 'T',
         Nat.digitChar (dt.hour / 10 % 10), Nat.digitChar (dt.hour % 10), ':',
         Nat.digitChar (dt.minute / 10 % 10), Nat.digitChar (dt.minute % 10), ':',
         Nat.digitChar (dt.second / 10 % 10), Nat.digitChar (dt.second % 10)] := by
    unfold strftimeIsoZ
    rw [h]
    rfl
  rw [hb]
  exact addColonOffset_nosign _ _ _ _ _ _ _ _ _ _ _ _ _ _ _ _ _ _ _
    (digitChar_not_sign (dt.minute / 10 % 10) (Nat.mod_lt _ (by norm_num)))

lemma replaceZChars_id (cs : List Char) (h : ∀ c ∈ cs, c ≠ 'Z') : replaceZChars cs = cs := by
  induction cs with
  | nil => rfl
  | cons c rest ih =>
    rw [replaceZChars, if_neg (h c (List.mem_cons_self c rest)),
      ih (fun x hx => h x (List.mem_cons_of_mem c hx))]
    rfl

lemma replaceZ_id (s : String) (h : ∀ c ∈ s.data, c ≠ 'Z') : replaceZ s = s := by
  unfold replaceZ
  rw [replaceZChars_id s.data h]

/-- Claim C3 (code_bug evaluation): a state file whose content is valid
JSON but not an object — here the JSON array `[]` — makes
`load_sync_state` raise `AttributeError` (`state.get` on a non-dict),
which the `except (json.JSONDecodeError, IOError)` clause of line 33 does
not catch, contradicting the contract that any malformed content behaves
like a missing file and never raises. -/
theorem load_sync_state_nondict_raises :
    load_sync_state (some (some (Json.jarr []))) = .error "AttributeError" ∧
    load_sync_state (some none) = .ok none ∧
    load_sync_state none = .ok none := ⟨rfl, rfl, rfl⟩

/-- Claim C8: feeding the habit fetcher a bare JSON sequence and feeding
it the `{"data": ...}` envelope of the same sequence yield the same
result, for every habit sequence `hs` — including the empty one, where the
bare form is falsy and the literal `[]` of line 110 is returned. Since the
two results are equal JSON values, every downstream consumer (in
particular the matcher fed from them) produces the same matched-habit set
for any task list. -/
theorem envelope_tolerance (hs : List Json) :
    get_habitify_habits (some (Json.jarr hs))
      = get_habitify_habits (some (Json.jobj [("data", Json.jarr hs)])) := by
  cases hs with
  | nil => rfl
  | cons h t => rfl

/-- Claim C1 (counterexample): for the input `2021-05-21T00:00:00Z` the
normalizer of lines 193-199 produces `2021-05-21T00:00:00+00:00`, not the
claimed local representation `2021-05-21T07:00:00+07:00`. The embedded
normalizer has no local-offset input at all because the source never
consults local time on this path: `fromisoformat` keeps the `+00:00`
zone attached by the `replace`, and `strftime('%z')` prints that same
zone, so the result is independent of the local UTC offset and the claim
fails under a local offset of +07:00 (as under any other). -/
theorem normalizer_ignores_local_offset_cex :
    normalize_target_date "2021-05-21T00:00:00Z" = some "2021-05-21T00:00:00+00:00" ∧
    ("2021-05-21T00:00:00+00:00" : String) ≠ "2021-05-21T07:00:00+07:00" := by
  exact ⟨rfl, by decide⟩

/-- Claim C2 (counterexample): the source keys the habit map by the
lower-cased name WITHOUT trimming (line 184 has `.lower()` only), so a
habit named `"read book "` (trailing blank) does not match a task named
`"Read Book"`, while the spec-worded matcher (lower-cased and trimmed
key) does match it. The claim as stated is therefore false on the code. -/
theorem matcher_trim_cex :
    matching_habit [⟨"h1", "read book "⟩] "Read Book" = none ∧
    matching_habit_specworded [⟨"h1", "read book "⟩] "Read Book"
      = some ⟨"h1", "read book "⟩ := by
  exact ⟨by decide, by decide⟩

/-- Claim C2 (amended): the lookup of line 184 is keyed by the
lower-cased habit name with NO trimming, and matching is exact
case-insensitive name equality only: a matched habit is a member of the
habit list whose lower-cased name equals the task's lower-cased name, no
match means no habit has such a name, `"Read Book"` pairs with
`"read book"`, and pairs with nothing when the only habit is
`"Read a Book"`. -/
theorem matcher_case_insensitive_exact (habits : List Habit) (taskName : String) :
    (∀ hb, matching_habit habits taskName = some hb →
      hb ∈ habits ∧ pyLower hb.name = pyLower taskName) ∧
    (matching_habit habits taskName = none →
      ∀ hb ∈ habits, pyLower hb.name ≠ pyLower taskName) ∧
    matching_habit [⟨"h1", "read book"⟩] "Read Book" = some ⟨"h1", "read book"⟩ ∧
    matching_habit [⟨"h1", "Read a Book"⟩] "Read Book" = none := by
  refine ⟨?_, ?_, by decide, by decide⟩
  · intro hb h
    unfold matching_habit habit_map_get at h
    have hbeq := @List.find?_some _ (fun h => pyLower h.name == pyLower taskName)
      hb habits.reverse h
    exact ⟨List.mem_reverse.mp (List.mem_of_find?_eq_some h), eq_of_beq hbeq⟩
  · intro h hb hmem heq
    unfold matching_habit habit_map_get at h
    exact List.find?_eq_none.mp h hb (List.mem_reverse.mpr hmem) (beq_iff_eq.mpr heq)

theorem matcher_case_insensitive_exact_witness :
    ((⟨"h1", "read book"⟩ : Habit) ∈ ([⟨"h1", "read book"⟩] : List Habit) ∧
      pyLower "read book" = pyLower "Read Book") ∧
    matching_habit [⟨"h1", "Read a Book"⟩] "Read Book" = none := by
  have h := matcher_case_insensitive_exact [⟨"h1", "read book"⟩] "Read Book"
  exact ⟨h.1 ⟨"h1", "read book"⟩ h.2.2.1, h.2.2.2⟩

/-- Claim C1 (amended): for every task whose completion timestamp is a
`Z`-suffixed ISO-8601 UTC instant, the normalizer produces the ISO-8601
representation of that same instant still in UTC, with the explicit
signed offset `+00:00` — colon separator present, never a bare `Z` or
`+0000` — and no conversion to local time takes place. -/
theorem normalizer_utc_explicit_offset (ca : String) (dt : PyDateTime)
    (hz : ca.data.getLast? = some 'Z')
    (hp : fromisoformat (replaceZ ca) = some dt)
    (h0 : dt.utcoffset = some 0) :
    normalize_target_date ca = some ⟨isoBodyChars dt ++ ['+', '0', '0', ':', '0', '0']⟩ := by
  have h1 : strftimeIsoZ dt = isoBodyChars dt ++ ['+', '0', '0', '0', '0'] := by
    unfold strftimeIsoZ
    rw [h0]
    rfl
  simp only [normalize_target_date, hp]
  rw [h1, addColon_utc]

theorem normalizer_utc_explicit_offset_witness :
    normalize_target_date "2021-05-21T00:00:00Z"
      = some ⟨isoBodyChars ⟨2021, 5, 21, 0, 0, 0, 0, some 0⟩ ++ ['+', '0', '0', ':', '0', '0']⟩ ∧
    (⟨isoBodyChars ⟨2021, 5, 21, 0, 0, 0, 0, some 0⟩ ++ ['+', '0', '0', ':', '0', '0']⟩ : String)
      = "2021-05-21T00:00:00+00:00" := by
  exact ⟨normalizer_utc_explicit_offset "2021-05-21T00:00:00Z"
    ⟨2021, 5, 21, 0, 0, 0, 0, some 0⟩ rfl rfl rfl, by decide⟩

lemma statusCheck_ok (r : Option Json) (h : RespWF r) :
    ∃ b, statusCheck r = .ok b ∧ statusBool r = b := by
  cases r with
  | none => exact ⟨false, rfl, rfl⟩
  | some j =>
    rcases h with h | ⟨fields, rfl⟩
    · exact ⟨false, by simp [statusCheck, h], by simp [statusBool, statusCheck, h]⟩
    · cases hjt : jTruthy (Json.jobj fields) with
      | false => exact ⟨false, by simp [statusCheck, hjt], by simp [statusBool, statusCheck, hjt]⟩
      | true =>
        exact ⟨(match jGet fields "status" with | some v => jTruthy v | none => false),
          by simp [statusCheck, hjt], by simp [statusBool, statusCheck, hjt]⟩

/-- Claim C9: a valid naive ISO-8601 completion timestamp (no `Z`, no
offset) is not skipped: normalization succeeds, the produced target date
is the plain `%Y-%m-%dT%H:%M:%S` body carrying no UTC offset (`%z`
prints nothing and the colon-insertion step of lines 198-199 is a no-op),
and for a task bearing it that matches a habit the log-create call is
still issued. -/
theorem naive_timestamp_synced (ca : String) (dt : PyDateTime)
    (habits : List Habit) (t : CompletedTask) (logResp : Nat → Option Json)
    (st : LoopSt) (hb : Habit)
    (hnoZ : ∀ c ∈ ca.data, c ≠ 'Z')
    (hp : fromisoformat ca = some dt)
    (hnaive : dt.utcoffset = none)
    (hta : t.completed_at = ca)
    (hmatch : matching_habit habits t.content = some hb)
    (hresp : RespWF (logResp st.calls.length)) :
    normalize_target_date ca = some ⟨isoBodyChars dt⟩ ∧
    formatOffsetZ dt.utcoffset = [] ∧
    addColonOffset (strftimeIsoZ dt) = strftimeIsoZ dt ∧
    ∃ st', processTask habits logResp st t = .ok st' ∧
      st'.calls = st.calls ++ [(hb.id, ⟨isoBodyChars dt⟩)] := by
  have hrepl : replaceZ ca = ca := replaceZ_id ca hnoZ
  have hnorm : normalize_target_date ca = some ⟨isoBodyChars dt⟩ := by
    simp only [normalize_target_date, hrepl, hp]
    rw [addColon_naive dt hnaive]
  have hnoop : addColonOffset (strftimeIsoZ dt) = strftimeIsoZ dt := by
    rw [addColon_naive dt hnaive]
    unfold strftimeIsoZ
    rw [hnaive]
    simp [formatOffsetZ]
  refine ⟨hnorm, by rw [hnaive]; rfl, hnoop, ?_⟩
  obtain ⟨b, hsc, _⟩ := statusCheck_ok _ hresp
  cases b with
  | true =>
    exact ⟨⟨st.synced + 1, st.calls ++ [(hb.id, ⟨isoBodyChars dt⟩)]⟩,
      by simp only [processTask, hta, hnorm, hmatch, hsc], rfl⟩
  | false =>
    exact ⟨⟨st.synced, st.calls ++ [(hb.id, ⟨isoBodyChars dt⟩)]⟩,
      by simp only [processTask, hta, hnorm, hmatch, hsc], rfl⟩

theorem naive_timestamp_synced_witness :
    normalize_target_date "2021-05-21T09:30:00"
      = some ⟨isoBodyChars ⟨2021, 5, 21, 9, 30, 0, 0, none⟩⟩ ∧
    (⟨isoBodyChars ⟨2021, 5, 21, 9, 30, 0, 0, none⟩⟩ : String) = "2021-05-21T09:30:00" ∧
    ∃ st', processTask [⟨"h1", "write"⟩] (fun _ => none) ⟨0, []⟩ ⟨"Write", "2021-05-21T09:30:00"⟩
        = .ok st' ∧
      st'.calls = [] ++ [("h1", ⟨isoBodyChars ⟨2021, 5, 21, 9, 30, 0, 0, none⟩⟩)] := by
  have h := naive_timestamp_synced "2021-05-21T09:30:00" ⟨2021, 5, 21, 9, 30, 0, 0, none⟩
    [⟨"h1", "write"⟩] ⟨"Write", "2021-05-21T09:30:00"⟩ (fun _ => none) ⟨0, []⟩
    ⟨"h1", "write"⟩ (by decide) rfl rfl rfl (by decide) trivial
  exact ⟨h.1, by decide, h.2.2.2⟩

lemma runLoop_spec (habits : List Habit) (logResp : Nat → Option Json)
    (hWF : ∀ i, RespWF (logResp i)) :
    ∀ (ts : List CompletedTask) (st : LoopSt),
      runLoop habits logResp ts st
        = .ok ⟨st.synced
                 + countSuccessFrom logResp st.calls.length (expectedCalls habits ts).length,
               st.calls ++ expectedCalls habits ts⟩ := by
  intro ts
  induction ts with
  | nil =>
    intro st
    cases st
    simp [runLoop, expectedCalls, countSuccessFrom]
  | cons t rest ih =>
    intro st
    cases hn : normalize_target_date t.completed_at with
    | none =>
      have hexp : expectedCalls habits (t :: rest) = expectedCalls habits rest := by
        simp [expectedCalls, hn]
      rw [hexp]
      simp only [runLoop, processTask, hn]
      exact ih st
    | some target =>
      cases hm : matching_habit habits t.content with
      | none =>
        have hexp : expectedCalls habits (t :: rest) = expectedCalls habits rest := by
          simp [expectedCalls, hn, hm]
        rw [hexp]
        simp only [runLoop, processTask, hn, hm]
        exact ih st
      | some habit =>
        obtain ⟨b, hsc, hsb⟩ := statusCheck_ok _ (hWF st.calls.length)
        have hexp : expectedCalls habits (t :: rest)
            = (habit.id, target) :: expectedCalls habits rest := by
          simp [expectedCalls, hn, hm]
        rw [hexp]
        have hlen : (st.calls ++ [(habit.id, target)]).length = st.calls.length + 1 := by
          simp
        cases b with
        | true =>
          simp only [runLoop, processTask, hn, hm, hsc]
          rw [ih ⟨st.synced + 1, st.calls ++ [(habit.id, target)]⟩]
          simp only [List.length_cons, countSuccessFrom, hsb, if_pos, hlen,
            List.append_assoc, List.singleton_append]
          exact congrArg Except.ok (by rw [LoopSt.mk.injEq]; exact ⟨by omega, rfl⟩)
        | false =>
          simp only [runLoop, processTask, hn, hm, hsc]
          rw [ih ⟨st.synced, st.calls ++ [(habit.id, target)]⟩]
          simp only [List.length_cons, countSuccessFrom, hsb, if_neg, Bool.false_eq_true,
            not_false_iff, hlen, List.append_assoc, List.singleton_append]
          exact congrArg Except.ok (by rw [LoopSt.mk.injEq]; exact ⟨by omega, rfl⟩)

lemma getLast?_three_cons {α : Type} (a b c : α) (l : List α) (x : α) :
    (a :: b :: c :: (l ++ [x])).getLast? = some x := by
  have h : a :: b :: c :: (l ++ [x]) = (a :: b :: c :: l) ++ [x] := by simp
  rw [h, List.getLast?_concat]

/-- Claim C4: with both credentials accepted by the precondition checks,
every run ends in the state commit: whatever the fetched tasks and habits
are (including the empty results that model fetch failures) and whatever
each per-task date parse or log write does, `save_sync_state` is called
with the commit-time clock value and it is the run's final effect. -/
theorem sync_always_commits (token key : Option String)
    (stateContent : Option (Option Json)) (tasks : List CompletedTask)
    (habits : List Habit) (logResp : Nat → Option Json) (nowIso : String)
    (h1 : token.getD "" ≠ "") (h2 : key.getD "" ≠ "")
    (h3 : StateWF stateContent) (h4 : ∀ i, RespWF (logResp i)) :
    ∃ o, sync_tasks token key stateContent tasks habits logResp nowIso = .ok o ∧
      o.saved = some nowIso ∧
      o.effects.getLast? = some (.stateSave nowIso) := by
  obtain ⟨ls, s, hls, hcs⟩ := h3
  simp only [sync_tasks, if_neg h1, if_neg h2, hls, hcs]
  by_cases hte : tasks.isEmpty
  · rw [if_pos hte]
    exact ⟨_, rfl, rfl, rfl⟩
  · rw [if_neg hte]
    by_cases hhe : habits.isEmpty
    · rw [if_pos hhe]
      exact ⟨_, rfl, rfl, rfl⟩
    · rw [if_neg hhe, runLoop_spec habits logResp h4 tasks ⟨0, []⟩]
      exact ⟨_, rfl, rfl, getLast?_three_cons _ _ _ _ _⟩

theorem sync_always_commits_witness :
    ∃ o, sync_tasks (some "t") (some "k") none [] [] (fun _ => none) "2026-01-01T00:00:00"
        = .ok o ∧
      o.saved = some "2026-01-01T00:00:00" ∧
      o.effects.getLast? = some (.stateSave "2026-01-01T00:00:00") := by
  exact sync_always_commits (some "t") (some "k") none [] [] (fun _ => none)
    "2026-01-01T00:00:00" (by decide) (by decide) ⟨none, none, rfl, rfl⟩ (fun _ => trivial)

/-- Claim C6: per-task failures are isolated. Under well-shaped log
responses the loop never aborts, the sequence of issued log calls equals
`expectedCalls`, which is computed from the tasks and habits alone — so no
response (failing or not) can prevent any other task's submission attempt
— and the final tally of line 223 reports the number of truthy-status
responses over the total number of completed tasks. -/
theorem per_task_failures_isolated (token key : Option String)
    (stateContent : Option (Option Json)) (tasks : List CompletedTask)
    (habits : List Habit) (logResp : Nat → Option Json) (nowIso : String)
    (h1 : token.getD "" ≠ "") (h2 : key.getD "" ≠ "")
    (h3 : StateWF stateContent) (h4 : ∀ i, RespWF (logResp i))
    (h5 : tasks ≠ []) (h6 : habits ≠ []) :
    ∃ o, sync_tasks token key stateContent tasks habits logResp nowIso = .ok o ∧
      o.calls = expectedCalls habits tasks ∧
      o.reported
        = some (countSuccessFrom logResp 0 (expectedCalls habits tasks).length,
                tasks.length) := by
  obtain ⟨ls, s, hls, hcs⟩ := h3
  have hte : tasks.isEmpty = false := by
    cases tasks with
    | nil => exact absurd rfl h5
    | cons a l => rfl
  have hhe : habits.isEmpty = false := by
    cases habits with
    | nil => exact absurd rfl h6
    | cons a l => rfl
  simp only [sync_tasks, if_neg h1, if_neg h2, hls, hcs, hte, hhe, Bool.false_eq_true,
    if_false, runLoop_spec habits logResp h4 tasks ⟨0, []⟩]
  exact ⟨_, rfl, by simp, by simp⟩

theorem per_task_failures_isolated_witness :
    ∃ o, sync_tasks (some "t") (some "k") none
        [⟨"a", "2021-05-21T00:00:00Z"⟩, ⟨"b", "2021-05-21T00:00:00Z"⟩,
         ⟨"c", "2021-05-21T00:00:00Z"⟩]
        [⟨"h1", "a"⟩, ⟨"h2", "b"⟩, ⟨"h3", "c"⟩]
        (fun i => if i = 1 then none else some (.jobj [("status", .jbool true)]))
        "2026-01-01T00:00:00" = .ok o ∧
      o.calls = [("h1", "2021-05-21T00:00:00+00:00"), ("h2", "2021-05-21T00:00:00+00:00"),
                 ("h3", "2021-05-21T00:00:00+00:00")] ∧
      o.reported = some (2, 3) := by
  obtain ⟨o, ho, hc, hr⟩ := per_task_failures_isolated (some "t") (some "k") none
    [⟨"a", "2021-05-21T00:00:00Z"⟩, ⟨"b", "2021-05-21T00:00:00Z"⟩,
     ⟨"c", "2021-05-21T00:00:00Z"⟩]
    [⟨"h1", "a"⟩, ⟨"h2", "b"⟩, ⟨"h3", "c"⟩]
    (fun i => if i = 1 then none else some (.jobj [("status", .jbool true)]))
    "2026-01-01T00:00:00" (by decide) (by decide) ⟨none, none, rfl, rfl⟩
    (fun i => by
      by_cases h : i = 1
      · simp [h, RespWF]
      · simp only [if_neg h]
        exact Or.inr ⟨_, rfl⟩)
    (by decide) (by decide)
  refine ⟨o, ho, ?_, ?_⟩
  · rw [hc]
    rfl
  · rw [hr]
    rfl

/-- Claim C7 (counterexample): with both credentials PRESENT but the
task-service token set to the empty string, the process still exits with
status 1 (the code tests falsiness of the fetched value, conflating an
empty credential with an absent one), contradicting the claim that
presence of both credentials implies exit status zero. -/
theorem empty_credentials_exit_cex :
    sync_tasks (some "") (some "k") none [] [] (fun _ => none) "2026-01-01T00:00:00"
      = .ok ⟨1, [], none, none, []⟩ ∧ (1 : Nat) ≠ 0 := by
  exact ⟨rfl, by decide⟩

/-- Claim C7 (amended): if either required credential is absent OR empty,
the process exits with status 1 having produced no effect at all (no
network access, no state load); if both are present and non-empty, the
process exits with status zero however the individual fetch, date-parse
and log-write operations turn out. -/
theorem exit_code_policy (token key : Option String)
    (stateContent : Option (Option Json)) (tasks : List CompletedTask)
    (habits : List Habit) (logResp : Nat → Option Json) (nowIso : String) :
    ((token.getD "" = "" ∨ key.getD "" = "") →
      sync_tasks token key stateContent tasks habits logResp nowIso
        = .ok ⟨1, [], none, none, []⟩) ∧
    (token.getD "" ≠ "" → key.getD "" ≠ "" → StateWF stateContent →
      (∀ i, RespWF (logResp i)) →
      ∃ o, sync_tasks token key stateContent tasks habits logResp nowIso = .ok o ∧
        o.exitCode = 0) := by
  constructor
  · intro h
    by_cases h1 : token.getD "" = ""
    · simp [sync_tasks, h1]
    · rcases h with h | h
      · exact absurd h h1
      · simp [sync_tasks, h1, h]
  · intro h1 h2 h3 h4
    obtain ⟨ls, s, hls, hcs⟩ := h3
    simp only [sync_tasks, if_neg h1, if_neg h2, hls, hcs]
    by_cases hte : tasks.isEmpty
    · rw [if_pos hte]
      exact ⟨_, rfl, rfl⟩
    · rw [if_neg hte]
      by_cases hhe : habits.isEmpty
      · rw [if_pos hhe]
        exact ⟨_, rfl, rfl⟩
      · rw [if_neg hhe, runLoop_spec habits logResp h4 tasks ⟨0, []⟩]
        exact ⟨_, rfl, rfl⟩

theorem exit_code_policy_witness :
    sync_tasks none (some "k") none [] [] (fun _ => none) "2026-01-01T00:00:00"
      = .ok ⟨1, [], none, none, []⟩ ∧
    (∃ o, sync_tasks (some "t") (some "k") none [] [] (fun _ => none) "2026-01-01T00:00:00"
        = .ok o ∧ o.exitCode = 0) := by
  constructor
  · exact (exit_code_policy none (some "k") none [] [] (fun _ => none)
      "2026-01-01T00:00:00").1 (Or.inl rfl)
  · exact (exit_code_policy (some "t") (some "k") none [] [] (fun _ => none)
      "2026-01-01T00:00:00").2 (by decide) (by decide) ⟨none, none, rfl, rfl⟩
      (fun _ => trivial)

/-- Claim C5: on a bootstrap run (no usable prior state) invoked at
instant `t`, the `since` parameter sent to the task service is the
minute-precision rendering of `t` minus 60 minutes and the `until`
parameter is the minute-precision rendering of `t`; in particular the
window is exactly 3600 seconds wide at the precision the parameters
carry. -/
theorem bootstrap_window_bounds (t : Nat) (h : 3600 ≤ t) :
    since_param (bootstrap_since t) = truncMinute t - 3600 ∧
    until_param t = truncMinute t ∧
    since_param (bootstrap_since t) + 3600 = until_param t := by
  have hdm := Nat.div_add_mod t 60
  have hdm2 := Nat.div_add_mod (t - 3600) 60
  have hr : t % 60 < 60 := Nat.mod_lt _ (by norm_num)
  have hr2 : (t - 3600) % 60 < 60 := Nat.mod_lt _ (by norm_num)
  unfold since_param until_param bootstrap_since truncMinute
  refine ⟨?_, rfl, ?_⟩ <;> omega

theorem bootstrap_window_bounds_witness :
    since_param (bootstrap_since 7230) = truncMinute 7230 - 3600 ∧
    until_param 7230 = truncMinute 7230 ∧
    since_param (bootstrap_since 7230) + 3600 = until_param 7230 :=
  bootstrap_window_bounds 7230 (by norm_num)

lemma truncMinute_mono {a b : Nat} (h : a ≤ b) : truncMinute a ≤ truncMinute b :=
  Nat.mul_le_mul_right 60 (Nat.div_le_div_right h)

lemma chain_mono (tFetch tCommit : Nat → Nat)
    (hfc : ∀ i, tFetch i ≤ tCommit i) (hcf : ∀ i, tCommit i ≤ tFetch (i + 1)) :
    ∀ i j, i ≤ j → tFetch i ≤ tFetch j ∧ tCommit i ≤ tCommit j := by
  intro i j hij
  induction hij with
  | refl => exact ⟨le_rfl, le_rfl⟩
  | step h ih =>
    exact ⟨le_trans ih.1 (le_trans (hfc _) (hcf _)),
      le_trans ih.2 (le_trans (hcf _) (hfc _))⟩

/-- Claim C10 (counterexample): an instant strictly between a run's
`until` bound and its commit time can lie inside the NEXT run's fetch
window, because the stored watermark is truncated to the minute when it
is formatted as the next `since` parameter. Concretely: run one fetches
at instant 600 (`until` bound 600) and commits at 940; the next run's
window start is `since_param 940 = 900`, so the instant 920 — which lies
between the `until` bound and the commit time — IS in the next run's
window (here the next fetch happens at 1200). -/
theorem watermark_gap_cex :
    until_param 600 ≤ 920 ∧ 920 ≤ commit_value 940 ∧
    window_mem (commit_value 940) 1200 920 := by
  refine ⟨?_, ?_, ?_, ?_⟩ <;>
    simp only [until_param, commit_value, window_mem, since_param, truncMinute] <;> decide

/-- Claim C10 (amended): across a monotone chain of runs where run `i`
fetches at `tFetch i`, commits the clock value `tCommit i` as watermark,
and run `i+1` loads it as its window start, the committed value is the
commit-time clock reading and is at least the `until` bound; the next
run's window start is at or after the `until` bound; every instant from
the `until` bound up to the MINUTE-TRUNCATION of the commit time lies in
no run's fetch window; and instants from that truncation up to the commit
time lie at or after the next run's window start (they are re-covered by
the next window rather than lost). -/
theorem watermark_window_coverage (tFetch tCommit since : Nat → Nat) (n x : Nat)
    (hfc : ∀ i, tFetch i ≤ tCommit i)
    (hcf : ∀ i, tCommit i ≤ tFetch (i + 1))
    (hchain : ∀ i, since (i + 1) = commit_value (tCommit i)) :
    until_param (tFetch n) ≤ commit_value (tCommit n) ∧
    until_param (tFetch n) ≤ since_param (since (n + 1)) ∧
    (until_param (tFetch n) ≤ x → x < truncMinute (tCommit n) →
      ∀ j, ¬ window_mem (since j) (tFetch j) x) ∧
    (truncMinute (tCommit n) ≤ x → since_param (since (n + 1)) ≤ x) := by
  have htr : ∀ a : Nat, truncMinute a ≤ a := fun a => Nat.div_mul_le_self a 60
  refine ⟨le_trans (htr (tFetch n)) (hfc n), ?_, ?_, ?_⟩
  · show truncMinute (tFetch n) ≤ truncMinute (since (n + 1))
    rw [hchain n]
    exact truncMinute_mono (hfc n)
  · intro hx1 hx2 j hw
    obtain ⟨hw1, hw2⟩ := hw
    rcases le_or_lt j n with hjn | hnj
    · have hf : truncMinute (tFetch j) ≤ truncMinute (tFetch n) :=
        truncMinute_mono (chain_mono tFetch tCommit hfc hcf j n hjn).1
      have hx1' : truncMinute (tFetch n) ≤ x := hx1
      have hw2' : x < truncMinute (tFetch j) := hw2
      omega
    · obtain ⟨m, rfl⟩ : ∃ m, j = m + 1 := ⟨j - 1, by omega⟩
      have hnm : n ≤ m := by omega
      have hc : truncMinute (tCommit n) ≤ truncMinute (tCommit m) :=
        truncMinute_mono (chain_mono tFetch tCommit hfc hcf n m hnm).2
      rw [hchain m] at hw1
      have hw1' : truncMinute (tCommit m) ≤ x := hw1
      omega
  · intro hx
    show truncMinute (since (n + 1)) ≤ x
    rw [hchain n]
    exact hx

theorem watermark_window_coverage_witness :
    until_param 600 ≤ commit_value 900 ∧
    ¬ window_mem 900 1200 660 := by
  have h := watermark_window_coverage (fun i => 600 * (i + 1))
    (fun i => 600 * (i + 1) + 300)
    (fun j => if j = 0 then 0 else 600 * j + 300) 0 660
    (fun i => by show 600 * (i + 1) ≤ 600 * (i + 1) + 300
                 omega)
    (fun i => by show 600 * (i + 1) + 300 ≤ 600 * (i + 1 + 1)
                 omega)
    (fun i => by simp [commit_value])
  exact ⟨h.1, h.2.2.1 (by decide) (by decide) 1⟩
